import Mathlib

/-!
Verification of the schat room/broadcast engine and per-connection session
state machine (Go sources `internal/chat/room.go`, `internal/chat/session.go`,
`internal/chat/line_buffer.go`, `internal/chat/terminal_ui.go`).

Shallow embedding conventions:
* Go channels with capacity 16 are modelled as `List String` queues; a
  non-blocking send (`select { case ch <- msg: default: }`) appends when the
  queue holds fewer than 16 messages and drops otherwise.
* The injected clock (`r.clock`) and the injected colour picker
  (`r.colors.Next()`) are modelled by passing their outputs (`ts`, `color`)
  as explicit arguments to the operations that consume them.
* The Go map `map[string]*Client` is modelled as an association list keyed
  by `Client.id`; insertion overwrites an existing key, deletion removes it.
* Fallible IO writes are modelled by passing the outcome each write would
  produce (`Option String` holds an error message, `none` means success).
-/

namespace Schat

/-- One connected participant (`type Client struct` in room.go): identity,
display name, colour token, and the bounded outbound queue (`send chan string`
with capacity 16), modelled as the list of currently queued messages. -/
structure Client where
  id       : String
  username : String
  color    : String
  send     : List String
  deriving Repr, DecidableEq

/-- Capacity of a client's outbound channel (`make(chan string, 16)`). -/
def sendCapacity : Nat := 16

/-- `(*Client).tryDeliver`: non-blocking enqueue onto `c.send`; if the channel
already holds `sendCapacity` messages the message is dropped for this client. -/
def Client.tryDeliver (c : Client) (msg : String) : Client :=
  if c.send.length < sendCapacity then { c with send := c.send ++ [msg] } else c

/-- ANSI reset suffix used when wrapping a username in its colour
(`const colorReset = "\x1b[0m"`). -/
def colorReset : String := "\x1b[0m"

/-- The room state (`type Room struct`): the registry of clients keyed by id
and the atomically incremented sequence counter. The injected clock and colour
picker are modelled as explicit arguments of the operations. -/
structure Room where
  clients  : List Client
  sequence : Nat
  deriving Repr, DecidableEq

/-- `NewRoom()`: empty registry, counter at zero. -/
def NewRoom : Room := { clients := [], sequence := 0 }

/-- `ClientCount()`: number of registered clients. -/
def Room.ClientCount (r : Room) : Nat := r.clients.length

/- Decimal formatting of the sequence counter, modelling `fmt.Sprintf("%03d", n)`. -/

/-- The ASCII digit character for `d % 10`. -/
def digitChar (d : Nat) : Char := Char.ofNat (48 + d % 10)

/-- Fuelled decimal conversion (structural recursion so that concrete ids
compute by kernel reduction); `fuel > n` suffices for full conversion. -/
def decCharsAux : Nat → Nat → List Char
  | 0, _ => []
  | fuel + 1, n =>
      if n < 10 then [digitChar n]
      else decCharsAux fuel (n / 10) ++ [digitChar (n % 10)]

/-- Big-endian decimal digit characters of `n` (what the `%d` verb prints). -/
def decChars (n : Nat) : List Char := decCharsAux (n + 1) n

/-- Zero-padding to width 3 (the `%03d` verb): left-pad the decimal digits
with `'0'` up to length 3. -/
def pad3Chars (n : Nat) : List Char :=
  List.replicate (3 - (decChars n).length) '0' ++ decChars n

/-- `fmt.Sprintf("user-%03d", n)`: the id string assigned from counter value `n`. -/
def formatID (n : Nat) : String :=
  "user-" ++ String.mk (pad3Chars n)

/-- Numeric value of an ASCII digit character. -/
def charVal (c : Char) : Nat := c.toNat - 48

/-- Decimal value of a digit-character list (left fold, most significant first). -/
def listVal (cs : List Char) : Nat := cs.foldl (fun a c => 10 * a + charVal c) 0

/-- The counter value encoded in an id string `user-...` (left inverse of `formatID`). -/
def idVal (s : String) : Nat := listVal (s.data.drop 5)

/-- Insert a client into the registry, overwriting an entry with the same key
(Go `r.clients[id] = client` on a map). -/
def mapInsert (cs : List Client) (cl : Client) : List Client :=
  if cs.any (fun c => c.id = cl.id)
  then cs.map (fun c => if c.id = cl.id then cl else c)
  else cs ++ [cl]

/-- `deliverLocked(excludeID, msg)`: attempt a non-blocking delivery of `msg`
to every registered client except the one whose id is `excludeID`. -/
def Room.deliverLocked (r : Room) (excludeID msg : String) : Room :=
  { r with clients := r.clients.map (fun c => if c.id = excludeID then c else c.tryDeliver msg) }

/-- `broadcastSystem(text)`: format `[<ts>] [system] <text>` and deliver it to
every registered client (the exclude id `""` matches no assigned id). -/
def Room.broadcastSystem (r : Room) (ts text : String) : Room :=
  r.deliverLocked "" ("[" ++ ts ++ "] [system] " ++ text)

/-- `senderLabelLocked(senderID, fallbackName)`: the colour-wrapped username of
the registered sender, the bare username when its colour is empty, or the
fallback name when no client with that id is registered. -/
def Room.senderLabelLocked (r : Room) (senderID fallbackName : String) : String :=
  match r.clients.find? (fun c => c.id = senderID) with
  | some sender =>
      if sender.color = "" then sender.username
      else sender.color ++ sender.username ++ colorReset
  | none => fallbackName

/-- `AddClient(username)`: bump the sequence counter, format the id, default
the username to the id when empty, register the client (with the colour the
injected picker produced and a fresh empty queue), then broadcast the system
"joined" notice. Returns the updated room and the new client. -/
def Room.AddClient (r : Room) (username color ts : String) : Room × Client :=
  let seq := r.sequence + 1
  let id := formatID seq
  let uname := if username = "" then id else username
  let client : Client := { id := id, username := uname, color := color, send := [] }
  let r1 : Room := { r with sequence := seq, clients := mapInsert r.clients client }
  (r1.broadcastSystem ts (uname ++ " joined the chat"), client)

/-- `RemoveClient(id)`: if a client with this id is registered, delete it from
the registry, close its outbound channel and broadcast the system "left"
notice. Returns the updated room and, when a removal happened, the client
whose channel was closed by this call (`none` means the call was a no-op and
closed nothing). -/
def Room.RemoveClient (r : Room) (id ts : String) : Room × Option Client :=
  match r.clients.find? (fun c => c.id = id) with
  | none => (r, none)
  | some client =>
      let r1 : Room := { r with clients := r.clients.filter (fun c => ¬ c.id = id) }
      (r1.broadcastSystem ts (client.username ++ " left the chat"), some client)

/-- `Broadcast(senderID, senderName, text)`: format
`[<ts>] <senderLabel>: <text>` and deliver it to every registered client
except the sender (by id). Returns the updated room and the formatted line. -/
def Room.Broadcast (r : Room) (senderID senderName text ts : String) : Room × String :=
  let msg := "[" ++ ts ++ "] " ++ r.senderLabelLocked senderID senderName ++ ": " ++ text
  (r.deliverLocked senderID msg, msg)

/-- A trace of registry operations performed on one room: `AddClient` calls
(with the injected colour/timestamp values) interleaved with `RemoveClient`
calls. -/
inductive RoomOp
  | add (username color ts : String)
  | remove (id ts : String)
  deriving Repr, DecidableEq

/-- Run a trace of operations on a room, collecting the ids assigned by the
`AddClient` calls in generation order. -/
def runOps (r : Room) : List RoomOp → Room × List String
  | [] => (r, [])
  | .add u c ts :: rest =>
      let p := r.AddClient u c ts
      let q := runOps p.1 rest
      (q.1, p.2.id :: q.2)
  | .remove id ts :: rest => runOps (r.RemoveClient id ts).1 rest

/-- Number of `AddClient` calls in a trace. -/
def countAdds : List RoomOp → Nat
  | [] => 0
  | .add _ _ _ :: rest => countAdds rest + 1
  | .remove _ _ :: rest => countAdds rest

/-- The formatted system "left" notice broadcast when a client is removed. -/
def leftNotice (ts username : String) : String :=
  "[" ++ ts ++ "] [system] " ++ username ++ " left the chat"

/- Line buffer (`line_buffer.go`). -/

/-- `lineBuffer`: the session's in-progress input line (the declared capacity
only pre-sizes the Go slice and has no observable effect). -/
structure lineBuffer where
  data : List Char
  deriving Repr, DecidableEq

/-- `Append(r)`: append one character. -/
def lineBuffer.Append (b : lineBuffer) (r : Char) : lineBuffer := ⟨b.data ++ [r]⟩

/-- `TrimLast()`: drop the last character if any exist (`b.data[:n-1]` guarded
by `n > 0`). -/
def lineBuffer.TrimLast (b : lineBuffer) : lineBuffer :=
  if b.data.length > 0 then ⟨b.data.take (b.data.length - 1)⟩ else b

/-- `Reset()`: clear all content. -/
def lineBuffer.Reset (_b : lineBuffer) : lineBuffer := ⟨[]⟩

/-- `Drain()`: return the full content and clear the buffer in one step. -/
def lineBuffer.Drain (b : lineBuffer) : String × lineBuffer := (String.mk b.data, ⟨[]⟩)

/-- `Snapshot()`: return the content without mutating. -/
def lineBuffer.Snapshot (b : lineBuffer) : String := String.mk b.data

/-- A buffer mutation issued by the input side: `Append` or `TrimLast`. -/
inductive BufOp
  | append (c : Char)
  | trimLast
  deriving Repr, DecidableEq

/-- Apply a sequence of buffer mutations in order. -/
def applyBufOps (b : lineBuffer) : List BufOp → lineBuffer
  | [] => b
  | .append c :: rest => applyBufOps (b.Append c) rest
  | .trimLast :: rest => applyBufOps b.TrimLast rest

/-- The characters a mutation sequence nets out to, starting from `acc`: each
`append` adds its character at the end, each `trimLast` removes the last one. -/
def netChars (acc : List Char) : List BufOp → List Char
  | [] => acc
  | .append c :: rest => netChars (acc ++ [c]) rest
  | .trimLast :: rest => netChars acc.dropLast rest

/- Session line submission (`session.go`). -/

/-- Go's `unicode.IsSpace`: the characters `strings.TrimSpace` strips. -/
def goIsSpace (c : Char) : Bool :=
  c == ' ' || c == '\t' || c == '\n' || c.toNat == 11 || c.toNat == 12 || c == '\r' ||
  c.toNat == 0x85 || c.toNat == 0xA0 || c.toNat == 0x1680 ||
  (decide (0x2000 ≤ c.toNat) && decide (c.toNat ≤ 0x200A)) ||
  c.toNat == 0x2028 || c.toNat == 0x2029 ||
  c.toNat == 0x202F || c.toNat == 0x205F || c.toNat == 0x3000

/-- `strings.TrimSpace`: strip leading and trailing whitespace. -/
def trimSpace (s : String) : String :=
  String.mk (((s.data.dropWhile goIsSpace).reverse.dropWhile goIsSpace).reverse)

/-- `broadcastLine(text)`: if the trimmed text is non-empty, call
`Room.Broadcast` with it; the returned formatted line (always non-empty, so
the `msg != ""` guard in the source passes) is what the session prints
locally. `none` means `Broadcast` was not called. -/
def broadcastLine (r : Room) (sid sname ts : String) (text : String) :
    Room × Option String :=
  let trimmed := trimSpace text
  if trimmed = "" then (r, none)
  else
    let p := r.Broadcast sid sname trimmed ts
    (p.1, some p.2)

/-- `submitLine()`: drain the buffer; an empty or whitespace-only line only
re-renders the prompt (no broadcast), otherwise the line goes through
`broadcastLine`. Returns the room, the (drained) buffer, and the formatted
message if a broadcast happened. -/
def submitLine (r : Room) (sid sname ts : String) (b : lineBuffer) :
    Room × lineBuffer × Option String :=
  let p := b.Drain
  if trimSpace p.1 = "" then (r, p.2, none)
  else
    let q := broadcastLine r sid sname ts p.1
    (q.1, p.2, q.2)

/-- `handleEOF()`: submit any remaining buffered text as a final line through
`broadcastLine` (same trim rule), then terminate. -/
def handleEOF (r : Room) (sid sname ts : String) (b : lineBuffer) :
    Room × lineBuffer × Option String :=
  let p := b.Drain
  let q := broadcastLine r sid sname ts p.1
  (q.1, p.2, q.2)

/- The buffered reader (`bufio.NewReader(s.channel)`) and the read loop. -/

/-- The buffered reader: `buf` holds the bytes already buffered (available
without blocking, what `Buffered()` counts) and `rest` the chunks future
reads of the underlying channel will return; `rest = []` means the stream
has ended (EOF). -/
structure Reader where
  buf  : List Char
  rest : List (List Char)
  deriving Repr, DecidableEq

/-- `ReadRune()`: take the next buffered character, filling the buffer from
the next chunk when it is empty; `none` is EOF. -/
def Reader.readRune : Reader → Option (Char × Reader)
  | ⟨c :: bs, rs⟩ => some (c, ⟨bs, rs⟩)
  | ⟨[], []⟩ => none
  | ⟨[], chunk :: rs⟩ => Reader.readRune ⟨chunk, rs⟩
  termination_by r => r.rest.length

/-- `UnreadRune()`: push the last-read character back onto the buffer. -/
def Reader.unreadRune (rd : Reader) (c : Char) : Reader := ⟨c :: rd.buf, rd.rest⟩

/-- `Buffered()`: number of characters available without blocking. -/
def Reader.buffered (rd : Reader) : Nat := rd.buf.length

/-- The reader part of `handleNewline`: after reading a carriage return, if a
character is already buffered, read it; consume it when it is a line feed and
push it back otherwise (`reader.UnreadRune()`). A line feed that is not yet
buffered is never waited for. -/
def crPeek (r : Char) (rd : Reader) : Reader :=
  if r = '\r' ∧ 0 < rd.buffered then
    match rd.readRune with
    | some (next, rd2) => if next ≠ '\n' then rd2.unreadRune next else rd2
    | none => rd
  else rd

/-- Control characters recognised by the read loop (`ctrlC`, `ctrlD`,
`backspace`, `deleteChar` in session.go). -/
def ctrlCChar : Char := Char.ofNat 0x03

def ctrlDChar : Char := Char.ofNat 0x04

def backspaceChar : Char := Char.ofNat 0x08

def deleteChar : Char := Char.ofNat 0x7f

/-- The observable session state threaded through the read loop: the shared
room, this session's line buffer, the formatted messages of this session's
own broadcasts (in order), and how many times `submitLine` ran. -/
structure LoopSt where
  room    : Room
  buffer  : lineBuffer
  sent    : List String
  submits : Nat
  deriving Repr, DecidableEq

/-- One `submitLine` call as seen from the loop state. -/
def submitStep (sid sname ts : String) (st : LoopSt) : LoopSt :=
  let q := submitLine st.room sid sname ts st.buffer
  { room := q.1, buffer := q.2.1, sent := st.sent ++ q.2.2.toList,
    submits := st.submits + 1 }

/-- The `handleEOF` call as seen from the loop state. -/
def eofStep (sid sname ts : String) (st : LoopSt) : LoopSt :=
  let q := handleEOF st.room sid sname ts st.buffer
  { st with room := q.1, buffer := q.2.1, sent := st.sent ++ q.2.2.toList }

/-- How the read loop ended: `terminated` is the `errSessionTerminated` path
(interrupt / end-of-input character), `eof` the clean stream closure path.
`fuelExhausted` is a modelling artefact of the explicit recursion bound and
corresponds to no source behaviour. -/
inductive ExitKind
  | terminated
  | eof
  | fuelExhausted
  deriving Repr, DecidableEq

/-- `readLoop()` (with `processRune`/`handleNewline` inlined): repeatedly read
one character and dispatch on it — newline handling with the CRLF peek,
interrupt and end-of-input terminating, backspace/delete trimming, printable
characters appended, anything else ignored; EOF submits the remaining buffer.
`isPrint` abstracts `unicode.IsPrint`; `fuel` bounds the recursion (one unit
per loop iteration). -/
def readLoop (isPrint : Char → Bool) (sid sname ts : String) :
    Nat → LoopSt → Reader → LoopSt × ExitKind
  | 0, st, _ => (st, ExitKind.fuelExhausted)
  | fuel + 1, st, rd =>
      match rd.readRune with
      | none => (eofStep sid sname ts st, ExitKind.eof)
      | some (r, rd1) =>
          if r = '\r' ∨ r = '\n' then
            readLoop isPrint sid sname ts fuel (submitStep sid sname ts st) (crPeek r rd1)
          else if r = ctrlCChar then
            ({ st with buffer := st.buffer.Reset }, ExitKind.terminated)
          else if r = ctrlDChar then
            ({ st with buffer := st.buffer.Reset }, ExitKind.terminated)
          else if r = backspaceChar ∨ r = deleteChar then
            readLoop isPrint sid sname ts fuel { st with buffer := st.buffer.TrimLast } rd1
          else if isPrint r then
            readLoop isPrint sid sname ts fuel { st with buffer := st.buffer.Append r } rd1
          else readLoop isPrint sid sname ts fuel st rd1

/- Shell negotiation (`awaitShell` / `setup` in session.go). -/

/-- `handleRequest(req)`: the reply sent (`true` = accept) and whether the
request was the interactive-shell request that activates the session. -/
def handleRequest (t : String) : Bool × Bool :=
  if t = "shell" then (true, true)
  else if t = "pty-req" ∨ t = "env" ∨ t = "window-change" ∨ t = "signal" then (true, false)
  else (false, false)

/-- The error `awaitShell` wraps when the request stream ends first. -/
def shellNotRequestedMsg : String := "shell request not received before channel closed"

/-- `awaitShell()`: drain the request stream until the first shell request;
`ok` carries the requests left for the request pump, `error` is
`errShellNotRequested` when the stream ends first. -/
def awaitShell : List String → Except String (List String)
  | [] => Except.error shellNotRequestedMsg
  | t :: rest => if (handleRequest t).2 then Except.ok rest else awaitShell rest

/-- The room-visible effect of `setup()`: `AddClient` runs only after
`awaitShell` succeeds; on `errShellNotRequested` the session returns
silently, never joining. Returns the resulting room and the registered
client, if any. -/
def setupJoin (room : Room) (user color ts : String) (reqs : List String) :
    Room × Option Client :=
  match awaitShell reqs with
  | .error _ => (room, none)
  | .ok _ =>
      let p := room.AddClient user color ts
      (p.1, some p.2)

/- Session cleanup (`cleanupSession` in session.go). -/

/-- An action `cleanupSession` performs. -/
inductive CleanupAct
  | removeClient (id : String)
  | closeChannel
  | waitWorkers
  deriving Repr, DecidableEq

/-- The state `cleanupSession` reads: the `sync.Once` guard, the registered
client id (if registration happened), whether a channel handle exists, and
the shared room. -/
structure SessCleanup where
  done       : Bool
  clientID   : Option String
  hasChannel : Bool
  room       : Room
  deriving Repr, DecidableEq

/-- `cleanupSession()`: under the `sync.Once` guard, remove the client from
the room if one was registered, close the channel, and wait for the workers —
in that order; when the guard has already fired, do nothing. Returns the new
state and the actions performed by this call. -/
def cleanupSession (s : SessCleanup) (ts : String) : SessCleanup × List CleanupAct :=
  if s.done then (s, [])
  else
    let room2 := match s.clientID with
      | some id => (s.room.RemoveClient id ts).1
      | none => s.room
    ({ s with done := true, room := room2 },
      (match s.clientID with
        | some id => [CleanupAct.removeClient id]
        | none => []) ++
      (if s.hasChannel then [CleanupAct.closeChannel] else []) ++
      [CleanupAct.waitWorkers])

/-- Invoke `cleanupSession` `n` times in a row (as racing exit paths would),
concatenating the performed actions. -/
def runCleanups (s : SessCleanup) (ts : String) : Nat → SessCleanup × List CleanupAct
  | 0 => (s, [])
  | n + 1 =>
      let p := cleanupSession s ts
      let q := runCleanups p.1 ts n
      (q.1, p.2 ++ q.2)

/- Terminal UI (`terminal_ui.go`). -/

/-- A write the terminal UI performs against the synchronized writer:
the one-time status-line reservation, the status-region rewrite, or the
input-line rewrite. -/
inductive UIWrite
  | reservation
  | status
  | input
  deriving Repr, DecidableEq

/-- `terminalUI` state: the `sync.Once` guard of the status-line reservation
and the cached reservation error (`statusErr`). -/
structure TerminalUI where
  statusDone : Bool
  statusErr  : Option String
  deriving Repr, DecidableEq

/-- `newTerminalUI(writer)`. -/
def newTerminalUI : TerminalUI := ⟨false, none⟩

/-- `ensureStatusLine()`: under the `sync.Once` guard, perform the one-time
reservation write and cache its outcome; afterwards always return the cached
outcome. The write outcome the underlying writer would produce is passed in
(`none` = success); the returned list records whether the reservation write
was attempted by this call. -/
def ensureStatusLine (ui : TerminalUI) (reservationResult : Option String) :
    TerminalUI × Option String × List UIWrite :=
  if ui.statusDone then (ui, ui.statusErr, [])
  else ({ statusDone := true, statusErr := reservationResult },
        reservationResult, [UIWrite.reservation])

/-- `UpdatePrompt(header, line)`: reserve the status line (once), and unless
that failed rewrite the status region, and unless that failed rewrite the
input line. Each write's would-be outcome is passed in; returns the new UI
state, the call's error result, and the writes actually attempted. -/
def UpdatePrompt (ui : TerminalUI)
    (reservationResult statusResult inputResult : Option String) :
    TerminalUI × Option String × List UIWrite :=
  let e := ensureStatusLine ui reservationResult
  match e.2.1 with
  | some err => (e.1, some err, e.2.2)
  | none =>
      match statusResult with
      | some err => (e.1, some err, e.2.2 ++ [UIWrite.status])
      | none => (e.1, inputResult, e.2.2 ++ [UIWrite.status, UIWrite.input])

/- Concrete fixtures used by witnesses and counterexamples. -/

/-- A room holding a single registered client whose injected colour token is
empty (a legitimate `ColorPicker` output): `alice` with id `user-001`. -/
def roomEmptyColor : Room := (NewRoom.AddClient "alice" "" "t1").1

/-- A room with two registered clients: `alice` (`user-001`, red) and `bob`
(`user-002`, green). -/
def roomTwo : Room :=
  ((NewRoom.AddClient "alice" "\x1b[31m" "t1").1.AddClient "bob" "\x1b[32m" "t2").1

/- Arithmetic facts about the decimal id formatting. -/

theorem charVal_digitChar (d : Nat) : charVal (digitChar d) = d % 10 := by
  have hk : d % 10 < 10 := Nat.mod_lt _ (by norm_num)
  unfold charVal digitChar
  interval_cases h : d % 10 <;> rfl

theorem listVal_append_singleton (cs : List Char) (c : Char) :
    listVal (cs ++ [c]) = 10 * listVal cs + charVal c := by
  simp [listVal, List.foldl_append]

theorem listVal_decCharsAux (fuel n : Nat) (h : n < fuel) :
    listVal (decCharsAux fuel n) = n := by
  induction fuel generalizing n with
  | zero => omega
  | succ fuel ih =>
      rw [decCharsAux]
      by_cases h10 : n < 10
      · simp only [h10, if_true, listVal, List.foldl, charVal_digitChar]
        omega
      · have hdiv : n / 10 < fuel :=
          Nat.lt_of_lt_of_le
            (Nat.div_lt_self (by omega) (by norm_num)) (by omega)
        simp only [h10, if_false, listVal_append_singleton, ih _ hdiv, charVal_digitChar]
        omega

theorem listVal_decChars (n : Nat) : listVal (decChars n) = n :=
  listVal_decCharsAux (n + 1) n (Nat.lt_succ_self n)

theorem foldl_replicate_zero (k : Nat) :
    List.foldl (fun a c => 10 * a + charVal c) 0 (List.replicate k '0') = 0 := by
  induction k with
  | zero => rfl
  | succ k ih => simpa [List.replicate_succ, List.foldl, charVal] using ih

theorem listVal_replicate_append (k : Nat) (cs : List Char) :
    listVal (List.replicate k '0' ++ cs) = listVal cs := by
  simp [listVal, List.foldl_append, foldl_replicate_zero]

theorem listVal_pad3 (n : Nat) : listVal (pad3Chars n) = n := by
  rw [pad3Chars, listVal_replicate_append, listVal_decChars]

theorem idVal_formatID (n : Nat) : idVal (formatID n) = n := by
  unfold idVal formatID
  rw [String.data_append]
  have h5 : ("user-".data).length = 5 := rfl
  show listVal ((("user-".data) ++ pad3Chars n).drop 5) = n
  rw [← h5, List.drop_left]
  exact listVal_pad3 n

theorem formatID_injective : Function.Injective formatID := by
  intro a b h
  have h2 := congrArg idVal h
  rwa [idVal_formatID, idVal_formatID] at h2

/- Sequence-counter bookkeeping along a trace. -/

theorem sequence_deliverLocked (r : Room) (e m : String) :
    (r.deliverLocked e m).sequence = r.sequence := rfl

theorem sequence_broadcastSystem (r : Room) (ts t : String) :
    (r.broadcastSystem ts t).sequence = r.sequence := rfl

theorem sequence_addClient (r : Room) (u c ts : String) :
    (r.AddClient u c ts).1.sequence = r.sequence + 1 := rfl

theorem id_addClient (r : Room) (u c ts : String) :
    (r.AddClient u c ts).2.id = formatID (r.sequence + 1) := rfl

theorem sequence_removeClient (r : Room) (id ts : String) :
    (r.RemoveClient id ts).1.sequence = r.sequence := by
  unfold Room.RemoveClient
  cases r.clients.find? (fun c => c.id = id) <;> rfl

theorem runOps_ids (r : Room) (ops : List RoomOp) :
    (runOps r ops).2 = (List.range' (r.sequence + 1) (countAdds ops)).map formatID := by
  induction ops generalizing r with
  | nil => rfl
  | cons op rest ih =>
      cases op with
      | add u c ts =>
          simp only [runOps, countAdds, List.range'_succ, List.map_cons, id_addClient]
          rw [ih, sequence_addClient]
      | remove id ts =>
          simp only [runOps, countAdds]
          rw [ih, sequence_removeClient]

/-- C3: along any trace of `AddClient` calls on one room (with `RemoveClient`
calls interleaved arbitrarily), the assigned ids are exactly the deterministic
zero-padded formattings of the successive counter values, their underlying
counter values are strictly increasing in generation order, and the id strings
are pairwise distinct — an id is never reused even after its client is
removed. -/
theorem addClient_ids_distinct_increasing (r : Room) (ops : List RoomOp) :
    (runOps r ops).2 = (List.range' (r.sequence + 1) (countAdds ops)).map formatID ∧
    List.Pairwise (fun a b => idVal a < idVal b) (runOps r ops).2 ∧
    List.Pairwise (fun a b => a ≠ b) (runOps r ops).2 := by
  refine ⟨runOps_ids r ops, ?_, ?_⟩ <;> rw [runOps_ids]
  · rw [List.pairwise_map]
    exact (List.pairwise_lt_range' _ _ 1 (by norm_num)).imp
      (fun hab => by simpa [idVal_formatID] using hab)
  · rw [List.pairwise_map]
    exact (List.pairwise_lt_range' _ _ 1 (by norm_num)).imp
      (fun hab heq => absurd (formatID_injective heq) (Nat.ne_of_lt hab))

/-- C1: `Broadcast(senderID, senderName, text)` leaves the registry's
identities untouched; the client at any position whose id equals the sender's
id is completely unchanged (the sender never receives its own message), any
other client with a queue holding fewer than 16 messages gets exactly the
formatted message appended, and any other client with a full queue is left
unchanged (the message is dropped for it alone). -/
theorem broadcast_queue_effects (r : Room) (sid sname text ts : String)
    (i : Nat) (hi : i < r.clients.length) :
    ((r.Broadcast sid sname text ts).1.clients.length = r.clients.length) ∧
    ∀ (hj : i < (r.Broadcast sid sname text ts).1.clients.length),
      ((r.Broadcast sid sname text ts).1.clients.get ⟨i, hj⟩).id =
          (r.clients.get ⟨i, hi⟩).id ∧
      ((r.Broadcast sid sname text ts).1.clients.get ⟨i, hj⟩).username =
          (r.clients.get ⟨i, hi⟩).username ∧
      ((r.Broadcast sid sname text ts).1.clients.get ⟨i, hj⟩).color =
          (r.clients.get ⟨i, hi⟩).color ∧
      ((r.clients.get ⟨i, hi⟩).id = sid →
          (r.Broadcast sid sname text ts).1.clients.get ⟨i, hj⟩ =
            r.clients.get ⟨i, hi⟩) ∧
      ((r.clients.get ⟨i, hi⟩).id ≠ sid →
          (r.clients.get ⟨i, hi⟩).send.length < sendCapacity →
          ((r.Broadcast sid sname text ts).1.clients.get ⟨i, hj⟩).send =
            (r.clients.get ⟨i, hi⟩).send ++ [(r.Broadcast sid sname text ts).2]) ∧
      ((r.clients.get ⟨i, hi⟩).id ≠ sid →
          ¬ (r.clients.get ⟨i, hi⟩).send.length < sendCapacity →
          (r.Broadcast sid sname text ts).1.clients.get ⟨i, hj⟩ =
            r.clients.get ⟨i, hi⟩) := by
  constructor
  · simp [Room.Broadcast, Room.deliverLocked]
  · intro hj
    have hget : (r.Broadcast sid sname text ts).1.clients.get ⟨i, hj⟩ =
        (fun c => if c.id = sid then c
          else c.tryDeliver (r.Broadcast sid sname text ts).2)
          (r.clients.get ⟨i, hi⟩) := by
      simp [Room.Broadcast, Room.deliverLocked, List.getElem_map]
    rw [hget]
    set c := r.clients.get ⟨i, hi⟩ with hc
    by_cases hid : c.id = sid
    · simp [hid]
    · simp only [hid, if_neg, if_false]
      unfold Client.tryDeliver
      by_cases hfull : c.send.length < sendCapacity
      · simp [hfull, hid]
      · simp [hfull, hid]

theorem removeClient_not_found (r : Room) (id ts : String)
    (h : r.clients.find? (fun c => c.id = id) = none) :
    r.RemoveClient id ts = (r, none) := by
  simp only [Room.RemoveClient, h]

/-- C4: `RemoveClient(id)` on a registered id closes that client's outbound
queue (returned as `some`), removes it from the registry, delivers exactly one
system "left" notice to each remaining client (via the non-blocking enqueue),
and leaves no entry under that id, so a repeated `RemoveClient` on the same id
is a no-op that closes nothing; `RemoveClient` on an unregistered id returns
the room unchanged and closes nothing. -/
theorem removeClient_spec (r : Room) (id ts ts2 : String) :
    (∀ cl, r.clients.find? (fun c => c.id = id) = some cl →
        (r.RemoveClient id ts).2 = some cl ∧
        (r.RemoveClient id ts).1.clients =
          (r.clients.filter (fun c => ¬ c.id = id)).map
            (fun c => if c.id = "" then c
              else c.tryDeliver (leftNotice ts cl.username)) ∧
        (r.RemoveClient id ts).1.clients.find? (fun c => c.id = id) = none ∧
        (r.RemoveClient id ts).1.RemoveClient id ts2 =
          ((r.RemoveClient id ts).1, none)) ∧
    (r.clients.find? (fun c => c.id = id) = none →
        r.RemoveClient id ts = (r, none)) := by
  constructor
  · intro cl hfind
    have hclients : (r.RemoveClient id ts).1.clients =
        (r.clients.filter (fun c => ¬ c.id = id)).map
          (fun c => if c.id = "" then c
            else c.tryDeliver (leftNotice ts cl.username)) := by
      simp only [Room.RemoveClient, hfind, Room.broadcastSystem, Room.deliverLocked,
        leftNotice, String.append_assoc]
    have hnone : (r.RemoveClient id ts).1.clients.find? (fun c => c.id = id) = none := by
      rw [hclients, List.find?_eq_none]
      intro x hx
      rcases List.mem_map.mp hx with ⟨y, hy, rfl⟩
      have hyid : ¬ y.id = id := by
        have h2 := (List.mem_filter.mp hy).2
        simpa using h2
      by_cases hz : y.id = ""
      · simpa [hz] using hyid
      · simpa [hz, Client.tryDeliver] using
          (by by_cases hf : y.send.length < sendCapacity <;> simp [hf, hyid])
    refine ⟨?_, hclients, hnone, ?_⟩
    · simp only [Room.RemoveClient, hfind]
    · exact removeClient_not_found _ id ts2 hnone
  · intro hfind
    exact removeClient_not_found _ id ts hfind

/-- C5 (amended): the line returned by `Broadcast` is
`[<ts>] <label>: <text>` where the label is the registered sender's username
wrapped in its colour token when the sender is registered with a non-empty
colour, the bare username when the sender is registered with an empty colour
token, and the literal fallback `senderName` when no client with `senderID`
is registered. -/
theorem broadcast_label_amended (r : Room) (sid sname text ts : String) :
    (∀ s, r.clients.find? (fun c => c.id = sid) = some s → s.color ≠ "" →
        (r.Broadcast sid sname text ts).2 =
          "[" ++ ts ++ "] " ++ s.color ++ s.username ++ colorReset ++ ": " ++ text) ∧
    (∀ s, r.clients.find? (fun c => c.id = sid) = some s → s.color = "" →
        (r.Broadcast sid sname text ts).2 =
          "[" ++ ts ++ "] " ++ s.username ++ ": " ++ text) ∧
    (r.clients.find? (fun c => c.id = sid) = none →
        (r.Broadcast sid sname text ts).2 =
          "[" ++ ts ++ "] " ++ sname ++ ": " ++ text) := by
  refine ⟨?_, ?_, ?_⟩
  · intro s hfind hcol
    simp only [Room.Broadcast, Room.senderLabelLocked, hfind, hcol, if_neg, if_false]
    simp [String.append_assoc]
  · intro s hfind hcol
    simp [Room.Broadcast, Room.senderLabelLocked, hfind, hcol]
  · intro hfind
    simp [Room.Broadcast, Room.senderLabelLocked, hfind]

theorem trimLast_dropLast (b : lineBuffer) : b.TrimLast = ⟨b.data.dropLast⟩ := by
  unfold lineBuffer.TrimLast
  by_cases h : b.data.length > 0
  · simp [h, List.dropLast_eq_take]
  · have hd : b.data = [] := List.eq_nil_of_length_eq_zero (by omega)
    cases b
    simp_all

theorem applyBufOps_data (acc : List Char) (ops : List BufOp) :
    (applyBufOps ⟨acc⟩ ops).data = netChars acc ops := by
  induction ops generalizing acc with
  | nil => rfl
  | cons op rest ih =>
      cases op with
      | append c => exact ih (acc ++ [c])
      | trimLast =>
          show (applyBufOps (lineBuffer.TrimLast ⟨acc⟩) rest).data = netChars acc.dropLast rest
          rw [trimLast_dropLast]
          exact ih acc.dropLast

/-- C7: starting from a buffer that was just reset or just drained, applying
any sequence of `Append`/`TrimLast` mutations and then `Drain` returns exactly
the appended characters in order minus those removed by `TrimLast`, and leaves
the buffer empty, so an immediately following `Snapshot` or `Drain` returns
the empty string; `TrimLast` on an empty buffer leaves it unchanged. -/
theorem lineBuffer_drain_spec (b0 : lineBuffer) (ops : List BufOp) :
    ((applyBufOps b0.Reset ops).Drain).1 = String.mk (netChars [] ops) ∧
    applyBufOps (b0.Drain).2 ops = applyBufOps b0.Reset ops ∧
    ((applyBufOps b0.Reset ops).Drain).2 = lineBuffer.mk [] ∧
    ((applyBufOps b0.Reset ops).Drain).2.Snapshot = "" ∧
    (((applyBufOps b0.Reset ops).Drain).2.Drain).1 = "" ∧
    lineBuffer.TrimLast ⟨[]⟩ = (⟨[]⟩ : lineBuffer) := by
  refine ⟨?_, rfl, rfl, rfl, rfl, rfl⟩
  show String.mk (applyBufOps ⟨[]⟩ ops).data = String.mk (netChars [] ops)
  rw [applyBufOps_data]

/-- C6: a submitted line whose content is empty or whitespace-only never
reaches `Room.Broadcast` — the room is untouched and the buffer left empty —
while a line with non-whitespace content is broadcast trimmed; at end of
stream the remaining buffered text is submitted under the same rule: it is
broadcast (trimmed) exactly when its trimmed content is non-empty. -/
theorem submit_trim_rule (r : Room) (sid sname ts : String) (b : lineBuffer) :
    (trimSpace b.Snapshot = "" →
        submitLine r sid sname ts b = (r, ⟨[]⟩, none)) ∧
    (trimSpace b.Snapshot ≠ "" →
        submitLine r sid sname ts b =
          ((r.Broadcast sid sname (trimSpace b.Snapshot) ts).1, ⟨[]⟩,
            some (r.Broadcast sid sname (trimSpace b.Snapshot) ts).2)) ∧
    (trimSpace b.Snapshot = "" →
        handleEOF r sid sname ts b = (r, ⟨[]⟩, none)) ∧
    (trimSpace b.Snapshot ≠ "" →
        handleEOF r sid sname ts b =
          ((r.Broadcast sid sname (trimSpace b.Snapshot) ts).1, ⟨[]⟩,
            some (r.Broadcast sid sname (trimSpace b.Snapshot) ts).2)) := by
  refine ⟨?_, ?_, ?_, ?_⟩ <;> intro h <;>
    simp only [submitLine, handleEOF, broadcastLine, lineBuffer.Drain,
      lineBuffer.Snapshot] at h ⊢ <;>
    simp [h]

/-- C8: when the read loop consumes a carriage return and a line feed is
already buffered right after it, the pair is consumed as one logical newline
producing exactly one line submission (the loop resumes after both
characters); a buffered character other than a line feed is pushed back and
not consumed; and when nothing is buffered after the carriage return the line
feed is not waited for (the reader is left untouched). -/
theorem crlf_single_submission (isPrint : Char → Bool) (sid sname ts : String)
    (fuel : Nat) (st : LoopSt) (bs : List Char) (rs : List (List Char)) :
    readLoop isPrint sid sname ts (fuel + 1) st ⟨'\r' :: '\n' :: bs, rs⟩ =
      readLoop isPrint sid sname ts fuel (submitStep sid sname ts st) ⟨bs, rs⟩ ∧
    (∀ c, ¬ c = '\n' →
        readLoop isPrint sid sname ts (fuel + 1) st ⟨'\r' :: c :: bs, rs⟩ =
          readLoop isPrint sid sname ts fuel (submitStep sid sname ts st)
            ⟨c :: bs, rs⟩) ∧
    readLoop isPrint sid sname ts (fuel + 1) st ⟨['\r'], rs⟩ =
      readLoop isPrint sid sname ts fuel (submitStep sid sname ts st) ⟨[], rs⟩ := by
  refine ⟨?_, ?_, ?_⟩
  · simp [readLoop, Reader.readRune, crPeek, Reader.buffered, Reader.unreadRune]
  · intro c hc
    simp [readLoop, Reader.readRune, crPeek, Reader.buffered, Reader.unreadRune, hc]
  · simp [readLoop, Reader.readRune, crPeek, Reader.buffered, Reader.unreadRune]

theorem handleRequest_shell_iff (t : String) :
    (handleRequest t).2 = true ↔ t = "shell" := by
  unfold handleRequest
  by_cases h : t = "shell"
  · simp [h]
  · by_cases h2 : t = "pty-req" ∨ t = "env" ∨ t = "window-change" ∨ t = "signal" <;>
      simp [h, h2]

theorem awaitShell_no_shell (reqs : List String) (h : "shell" ∉ reqs) :
    awaitShell reqs = Except.error shellNotRequestedMsg := by
  induction reqs with
  | nil => rfl
  | cons t rest ih =>
      have ht : ¬ (handleRequest t).2 = true := by
        rw [handleRequest_shell_iff]
        intro he
        exact h (he ▸ List.mem_cons_self t rest)
      rw [awaitShell, if_neg ht]
      exact ih (fun hm => h (List.mem_cons_of_mem t hm))

/-- C2: when the request stream ends before any `"shell"` request arrives,
`awaitShell` reports `errShellNotRequested`, the session terminates without
becoming active, and `Room.AddClient` never runs for that connection — the
room (including every client's queue) is exactly as before, so no "joined"
notice is broadcast on its behalf. -/
theorem shell_never_requested_silent (room : Room) (user color ts : String)
    (reqs : List String) (h : "shell" ∉ reqs) :
    awaitShell reqs = Except.error shellNotRequestedMsg ∧
    setupJoin room user color ts reqs = (room, none) := by
  have ha := awaitShell_no_shell reqs h
  exact ⟨ha, by simp [setupJoin, ha]⟩

theorem runCleanups_done (cid : Option String) (hch : Bool) (room : Room)
    (ts : String) (n : Nat) :
    runCleanups ⟨true, cid, hch, room⟩ ts n = (⟨true, cid, hch, room⟩, []) := by
  induction n with
  | zero => rfl
  | succ n ih => simp [runCleanups, cleanupSession, ih]

/-- C9: however many times the racing exit paths invoke `cleanupSession`, the
cleanup body runs exactly once: the first invocation removes the registered
client from the room (when one exists), closes the channel and waits for the
background workers, in that order, and every further invocation performs no
action and leaves the state unchanged. -/
theorem cleanup_once_ordered (room : Room) (cid : Option String) (hch : Bool)
    (ts : String) (n : Nat) :
    runCleanups ⟨false, cid, hch, room⟩ ts (n + 1) =
      (⟨true, cid, hch,
          match cid with
          | some id => (room.RemoveClient id ts).1
          | none => room⟩,
        (match cid with
          | some id => [CleanupAct.removeClient id]
          | none => []) ++
        (if hch then [CleanupAct.closeChannel] else []) ++
        [CleanupAct.waitWorkers]) ∧
    cleanupSession
        ⟨true, cid, hch,
          match cid with
          | some id => (room.RemoveClient id ts).1
          | none => room⟩ ts =
      (⟨true, cid, hch,
          match cid with
          | some id => (room.RemoveClient id ts).1
          | none => room⟩, []) := by
  constructor
  · rw [runCleanups]
    have hstep : cleanupSession ⟨false, cid, hch, room⟩ ts =
        (⟨true, cid, hch,
            match cid with
            | some id => (room.RemoveClient id ts).1
            | none => room⟩,
          (match cid with
            | some id => [CleanupAct.removeClient id]
            | none => []) ++
          (if hch then [CleanupAct.closeChannel] else []) ++
          [CleanupAct.waitWorkers]) := by
      simp [cleanupSession]
    rw [hstep, runCleanups_done]
    simp
  · simp [cleanupSession]

/-- C10: when the one-time status-line reservation write fails, the error is
cached: that `UpdatePrompt` call performs only the reservation write and
returns the error, and every subsequent `UpdatePrompt` on the same UI returns
the same error while performing no write at all — the reservation is not
retried, and neither the status region nor the input line is written. -/
theorem status_error_cached (e : String) (sr ir rr2 sr2 ir2 : Option String) :
    UpdatePrompt newTerminalUI (some e) sr ir =
      (⟨true, some e⟩, some e, [UIWrite.reservation]) ∧
    UpdatePrompt ⟨true, some e⟩ rr2 sr2 ir2 = (⟨true, some e⟩, some e, []) := by
  constructor <;> simp [UpdatePrompt, ensureStatusLine, newTerminalUI]

/-- C5 counterexample: with a registered sender whose colour token is empty,
`Broadcast` returns the bare username label, not the username wrapped in the
(empty) colour token and the colour reset, so the claim's "registered implies
colour-wrapped label" clause fails. -/
theorem broadcast_label_counterexample :
    (roomEmptyColor.clients.find? (fun c => c.id = "user-001")).isSome = true ∧
    (roomEmptyColor.Broadcast "user-001" "alice" "hi" "t2").2 = "[t2] alice: hi" ∧
    (roomEmptyColor.Broadcast "user-001" "alice" "hi" "t2").2 ≠
      "[t2] " ++ "" ++ "alice" ++ colorReset ++ ": " ++ "hi" := by
  refine ⟨by decide, by decide, by decide⟩

/-- Witness for C1: in the two-client room, a broadcast from `alice`
(`user-001`) appends the formatted message to `bob`'s queue (position 1,
whose id differs from the sender's and whose queue is below capacity). -/
theorem broadcast_queue_effects_witness :
    ((roomTwo.Broadcast "user-001" "alice" "hi" "t3").1.clients.get
        ⟨1, by decide⟩).send =
      (roomTwo.clients.get ⟨1, by decide⟩).send ++
        [(roomTwo.Broadcast "user-001" "alice" "hi" "t3").2] :=
  (((broadcast_queue_effects roomTwo "user-001" "alice" "hi" "t3" 1 (by decide)).2
      (by decide)).2.2.2.2).1 (by decide) (by decide)

/-- Witness for C2: a request stream that ends after `pty-req`, `env` and an
unrecognised `exec` request, never carrying `"shell"`, leaves the room
untouched and registers no client. -/
theorem shell_never_requested_silent_witness :
    awaitShell ["pty-req", "env", "exec"] = Except.error shellNotRequestedMsg ∧
    setupJoin NewRoom "alice" "red" "t1" ["pty-req", "env", "exec"] =
      (NewRoom, none) :=
  shell_never_requested_silent NewRoom "alice" "red" "t1"
    ["pty-req", "env", "exec"] (by decide)

/-- Witness for C4: removing the registered `bob` (`user-002`) from the
two-client room closes his queue (returned as `some`), and removing the same
id again is a no-op returning `none`. -/
theorem removeClient_spec_witness :
    (roomTwo.RemoveClient "user-002" "t4").2 =
      some (roomTwo.clients.get ⟨1, by decide⟩) ∧
    (roomTwo.RemoveClient "user-002" "t4").1.RemoveClient "user-002" "t5" =
      ((roomTwo.RemoveClient "user-002" "t4").1, none) := by
  have h := (removeClient_spec roomTwo "user-002" "t4" "t5").1
    (roomTwo.clients.get ⟨1, by decide⟩) (by decide)
  exact ⟨h.1, h.2.2.2⟩

/-- Witness for C5 (amended): with `alice` registered with a non-empty colour
the label is colour-wrapped, and with an unregistered sender id the literal
fallback name is used. -/
theorem broadcast_label_amended_witness :
    (roomTwo.Broadcast "user-001" "alice" "hi" "t3").2 =
      "[" ++ "t3" ++ "] " ++ (roomTwo.clients.get ⟨0, by decide⟩).color ++
        (roomTwo.clients.get ⟨0, by decide⟩).username ++ colorReset ++
        ": " ++ "hi" ∧
    (roomTwo.Broadcast "user-999" "ghost" "hi" "t3").2 =
      "[" ++ "t3" ++ "] " ++ "ghost" ++ ": " ++ "hi" :=
  ⟨(broadcast_label_amended roomTwo "user-001" "alice" "hi" "t3").1
      (roomTwo.clients.get ⟨0, by decide⟩) (by decide) (by decide),
    (broadcast_label_amended roomTwo "user-999" "ghost" "hi" "t3").2.2 (by decide)⟩

/-- Witness for C6: a whitespace-only buffer is drained without a broadcast
and the room is untouched; a buffer holding `"hi "` is broadcast trimmed. -/
theorem submit_trim_rule_witness :
    submitLine NewRoom "user-001" "alice" "t" ⟨[' ', '\t']⟩ =
      (NewRoom, ⟨[]⟩, none) ∧
    submitLine NewRoom "user-001" "alice" "t" ⟨['h', 'i', ' ']⟩ =
      ((NewRoom.Broadcast "user-001" "alice" "hi" "t").1, ⟨[]⟩,
        some (NewRoom.Broadcast "user-001" "alice" "hi" "t").2) := by
  refine ⟨(submit_trim_rule NewRoom "user-001" "alice" "t" ⟨[' ', '\t']⟩).1
      (by decide), ?_⟩
  have h := (submit_trim_rule NewRoom "user-001" "alice" "t"
      ⟨['h', 'i', ' ']⟩).2.1 (by decide)
  have ht : trimSpace (lineBuffer.Snapshot ⟨['h', 'i', ' ']⟩) = "hi" := by decide
  rw [ht] at h
  exact h

/-- Witness for C8: with a buffered `'a'` following the carriage return, the
loop performs one submission and pushes the `'a'` back for the next
iteration. -/
theorem crlf_single_submission_witness :
    readLoop (fun _ => true) "user-001" "alice" "t" 1
        ⟨NewRoom, ⟨[]⟩, [], 0⟩ ⟨['\r', 'a'], []⟩ =
      readLoop (fun _ => true) "user-001" "alice" "t" 0
        (submitStep "user-001" "alice" "t" ⟨NewRoom, ⟨[]⟩, [], 0⟩) ⟨['a'], []⟩ :=
  (crlf_single_submission (fun _ => true) "user-001" "alice" "t" 0
      ⟨NewRoom, ⟨[]⟩, [], 0⟩ [] []).2.1 'a' (by decide)

end Schat
